import Mathlib

/-!
Verification of the care-plan review workflow of the CarePlan AI demo.

The data model follows `src/clients/web-ui/src/types` (the `CarePlan`,
`CarePlanAction` and `ClinicianReview` interfaces); the client-side
operations are embedded from `src/clients/web-ui/src/services/api.ts`,
`src/clients/web-ui/src/pages/dashboards/PatientDashboard.tsx`,
`src/clients/web-ui/src/components/Layout/Sidebar.tsx` and
`src/clients/web-ui/src/contexts/AuthContext.tsx`.  The server-side
Review Engine is not part of the repository's sources (only the web
client is); where a property is decided by the engine it is modelled
from the specification, as stated in the corresponding doc comment.
-/

namespace CarePlanAI

/-- The closed status enum of a care plan, from the `status` union type of
the `CarePlan` interface (`draft | under_review | approved | denied |
sent_to_patient | active | completed`). -/
inductive Status where
  | draft
  | under_review
  | approved
  | denied
  | sent_to_patient
  | active
  | completed
deriving DecidableEq, Repr

/-- `action_type` enum of `CarePlanAction`. -/
inductive ActionType where
  | medication
  | diagnostic
  | lifestyle
  | followup
  | monitoring
  | referral
deriving DecidableEq, Repr

/-- `priority` enum (`high | medium | low`). -/
inductive Priority where
  | high
  | medium
  | low
deriving DecidableEq, Repr

/-- One recommended intervention, from the `CarePlanAction` interface. -/
structure CarePlanAction where
  action_id : String
  action_type : ActionType
  description : String
  priority : Priority
  timeline : String
  rationale : String
  evidence_source : Option String
  contraindications : List String
deriving DecidableEq, Repr

/-- The content fields a reviewer may modify, as assembled by the review
dialog's `handleApprove` (`PatientDashboard.tsx` lines 1271-1275:
`{ actions, clinical_summary, short_term_goals }`). -/
structure Modifications where
  actions : List CarePlanAction
  clinical_summary : String
  short_term_goals : List String
deriving DecidableEq, Repr

/-- One review record, from the `ClinicianReview` interface; the
`modifications` snapshot is kept structured (the TS type leaves it `any[]`). -/
structure ClinicianReview where
  reviewer_id : String
  reviewer_name : String
  review_date : String
  status : String
  comments : Option String
  modifications : Option Modifications
deriving DecidableEq, Repr

/-- A care plan, from the `CarePlan` interface of
`src/clients/web-ui/src/services/api.test.ts` (types section).  The
`confidence_score` number is modelled as a rational. -/
structure CarePlan where
  careplan_id : String
  patient_id : String
  patient_name : Option String
  created_date : String
  last_modified : String
  status : Status
  version : Nat
  primary_diagnosis : String
  secondary_diagnoses : List String
  chief_complaint : String
  clinical_summary : String
  actions : List CarePlanAction
  short_term_goals : List String
  long_term_goals : List String
  success_metrics : List String
  clinician_reviews : List ClinicianReview
  final_approver : Option String
  approval_date : Option String
  patient_instructions : Option String
  educational_resources : List String
  llm_model_used : Option String
  generation_timestamp : Option String
  confidence_score : Option ℚ
  assigned_clinician : Option String
  priority : Option Priority
  last_review_date : Option String
  reviewer_comments : Option String
  clinician_notes : Option String
deriving DecidableEq, Repr

/-! ## Client embedding -/

/-- The `action` union of `ApiService.submitCarePlanReview`'s request body
(`api.ts` line 259: `'approve' | 'deny' | 'edit'`). -/
inductive ReviewAction where
  | approve
  | deny
  | edit
deriving DecidableEq, Repr

/-- The request body of `ApiService.submitCarePlanReview` (`api.ts` lines
258-262): `{ action; comments?; modifications? }`.  `handleSubmitReview`
always passes a `comments` string, so only `modifications` may be absent. -/
structure ReviewRequestBody where
  action : ReviewAction
  comments : Option String
  modifications : Option Modifications
deriving DecidableEq, Repr

/-- The JSON keys of the serialized review request body: a key is present
exactly when its field is (JSON serialization drops `undefined` fields). -/
def ReviewRequestBody.serializedKeys (b : ReviewRequestBody) : List String :=
  ["action"]
    ++ (match b.comments with | some _ => ["comments"] | none => [])
    ++ (match b.modifications with | some _ => ["modifications"] | none => [])

/-- The body built by `handleSubmitReview` (`PatientDashboard.tsx` lines
608-612): `{ action, comments, modifications }`. -/
def buildReviewRequest (action : ReviewAction) (comments : String)
    (modifications : Option Modifications) : ReviewRequestBody :=
  { action := action, comments := some comments, modifications := modifications }

/-- The decision-button action of the review dialog, from `handleApprove`
(`PatientDashboard.tsx` line 1278):
`plan.status === 'under_review' ? 'approve' : 'edit'`. -/
def dialogDecisionAction (s : Status) : ReviewAction :=
  if s = Status.under_review then ReviewAction.approve else ReviewAction.edit

/-- The optimistic local update applied by `handleSubmitReview`
(`PatientDashboard.tsx` lines 588-604) to the plan under review:
the status becomes `approved`/`denied` for those actions and is kept for
`edit`; `reviewer_comments` is set; for an `edit` with a (truthy)
modifications object, the content fields are replaced. -/
def optimisticUpdate (plan : CarePlan) (action : ReviewAction)
    (comments : String) (modifications : Option Modifications) : CarePlan :=
  let base :=
    { plan with
      status :=
        match action with
        | ReviewAction.approve => Status.approved
        | ReviewAction.deny => Status.denied
        | ReviewAction.edit => plan.status,
      reviewer_comments := some comments }
  match action, modifications with
  | ReviewAction.edit, some m =>
      { base with
        clinical_summary := m.clinical_summary,
        actions := m.actions,
        short_term_goals := m.short_term_goals }
  | _, _ => base

/-! ## Review submission error handling (client) -/

/-- The typed error kinds of spec section 7 (the web client itself never
discriminates them; the type records which error a failed call carried). -/
inductive ErrorKind where
  | NotFound
  | StaleVersion
  | InvalidTransition
  | Forbidden
  | ValidationFailed
  | GenerationFailed
deriving DecidableEq, Repr

/-- The observable effects of one run of `handleSubmitReview` after the
optimistic local update (`PatientDashboard.tsx` lines 607-626). -/
structure SubmitEffects where
  closedDialog : Bool
  refetchedPlans : Bool
  surfacedErrorToUser : Bool
  loggedToConsole : Bool
  resubmitted : Bool
deriving DecidableEq, Repr

/-- The effects of `handleSubmitReview` as a function of the submission
result (`PatientDashboard.tsx` lines 607-626): on success the dialog is
closed and, for a clinician, the list is refreshed; on any error the
handler logs to the console and refetches the list to revert the
optimistic update — nothing is shown to the user and the submission is
never re-sent. -/
def handleSubmitReviewEffects (isClinician : Bool)
    (result : Except ErrorKind Unit) : SubmitEffects :=
  match result with
  | Except.ok _ =>
      { closedDialog := true
        refetchedPlans := isClinician
        surfacedErrorToUser := false
        loggedToConsole := false
        resubmitted := false }
  | Except.error _ =>
      { closedDialog := false
        refetchedPlans := true
        surfacedErrorToUser := false
        loggedToConsole := true
        resubmitted := false }

/-! ## `getPatientCarePlans` error handling (client) -/

/-- An HTTP-layer failure as seen by the axios catch blocks: the optional
`response.status` (absent for network errors). -/
structure HttpFailure where
  responseStatus : Option Nat
deriving DecidableEq, Repr

/-- `ApiService.getPatientCarePlans` (`api.ts` lines 178-190) as a function
of the backend outcome: a 404 response is turned into the empty list,
every other failure is re-thrown. -/
def getPatientCarePlans (backend : Except HttpFailure (List CarePlan)) :
    Except HttpFailure (List CarePlan) :=
  match backend with
  | Except.ok plans => Except.ok plans
  | Except.error e =>
      if e.responseStatus = some 404 then Except.ok []
      else Except.error e

/-! ## Doctor dashboard statistics (client) -/

/-- The count computed in `loadDoctorDashboard` (`Sidebar.tsx` lines
422-424): plans whose status is `approved` or `active`. -/
def activeCarePlansStat (plans : List CarePlan) : Nat :=
  (plans.filter
    (fun plan => plan.status = Status.approved ∨ plan.status = Status.active)).length

/-- The number of plans in a list bearing one given status. -/
def countWithStatus (plans : List CarePlan) (s : Status) : Nat :=
  (plans.filter (fun plan => plan.status = s)).length

/-- The doctor-dashboard stats object set in `loadDoctorDashboard`
(`Sidebar.tsx` lines 429-436); only the care-plan counters are modelled. -/
structure DoctorStats where
  activeCarePlans : Nat
  pendingApprovals : Nat
deriving DecidableEq, Repr

/-- The three chips of the "Care Plans Overview" card (`Sidebar.tsx` lines
630-642), in order: the "Pending Approvals", "Completed Plans" and
"Active Plans" labels with the stat each one displays. -/
def carePlansOverviewChips (stats : DoctorStats) : List (String × Nat) :=
  [("Pending Approvals", stats.pendingApprovals),
   ("Completed Plans", stats.activeCarePlans),
   ("Active Plans", stats.activeCarePlans)]

/-! ## Auth context (client) -/

/-- The auth-relevant client state: the React `user`/`token` state of
`AuthProvider` together with the two localStorage entries it maintains. -/
structure AuthState where
  user : Option String
  token : Option String
  storedToken : Option String
  storedUser : Option String
deriving DecidableEq, Repr

/-- `isAuthenticated` (`AuthContext.tsx` line 51): `!!user && !!token`. -/
def isAuthenticated (st : AuthState) : Bool :=
  st.user.isSome && st.token.isSome

/-- The possible outcomes of the server logout call issued inside the
`try` block of `logout`. -/
inductive LogoutServerOutcome where
  | succeeded
  | failedResponse
  | threw
deriving DecidableEq, Repr

/-- `logout` (`AuthContext.tsx` lines 133-154): the `try` block only
performs the server call (no local state change), a thrown error is
caught and logged, and the `finally` block clears the user, the token and
both localStorage keys regardless of the outcome. -/
def logout (_outcome : LogoutServerOutcome) (st : AuthState) : AuthState :=
  { st with
    user := none
    token := none
    storedToken := none
    storedUser := none }

/-! ## Review Engine (spec-modelled)

The server-side Review Engine is not among the repository's source files
(only the web client is present); it is modelled from spec sections 4.1,
4.2, 4.3, 6 and 7 below. -/

/-- Modelled from the spec: caller roles supplied by Identity/Auth
(section 6; `Role` sum type of section 9). -/
inductive Role where
  | patient
  | clinician
  | admin
deriving DecidableEq, Repr

/-- Modelled from the spec: the transition events of the section 4.1
table and the section 6 operation set.  The two edit rows of the table
(edit_and_resubmit from `under_review`, and clinician correction from
`approved`/`sent_to_patient`/`active`) share one `edit` event since both
have the same effect and leave the status unchanged. -/
inductive Event where
  | submitForReview
  | approve (reviewer_id reviewer_name review_date : String)
      (comments : Option String) (modifications : Option Modifications)
  | deny (reviewer_id reviewer_name review_date : String) (comments : String)
  | edit (reviewer_id reviewer_name review_date : String)
      (modifications : Modifications)
  | sendToPatient (delivery_timestamp : String)
  | activate
  | complete
deriving DecidableEq, Repr

/-- Modelled from the spec: whether the event is permitted from the given
status (the From column of the section 4.1 table). -/
def eventAllowed (s : Status) : Event → Bool
  | Event.submitForReview => s = Status.draft
  | Event.approve _ _ _ _ _ => s = Status.under_review
  | Event.deny _ _ _ _ => s = Status.under_review
  | Event.edit _ _ _ _ =>
      s = Status.under_review ∨ s = Status.approved ∨
        s = Status.sent_to_patient ∨ s = Status.active
  | Event.sendToPatient _ => s = Status.approved
  | Event.activate => s = Status.sent_to_patient
  | Event.complete => s = Status.active

/-- Modelled from the spec: whether the caller's role satisfies the guard
of the event (section 4.1 guards: clinician/admin for reviewer events;
`submit_for_review` has no role guard; `activate` is a system or
clinician trigger). -/
def roleAllowed (r : Role) : Event → Bool
  | Event.submitForReview => true
  | Event.activate => true
  | _ => r = Role.clinician ∨ r = Role.admin

/-- Modelled from the spec: the validation part of the guards (section
4.1 and section 7 `ValidationFailed`): a submit needs at least one
action; a deny needs non-empty comments; approve and deny need non-empty
reviewer fields (section 3 invariant on reviewer fields). -/
def eventValid (p : CarePlan) : Event → Bool
  | Event.submitForReview => 1 ≤ p.actions.length
  | Event.approve rid rname _ _ _ => rid ≠ "" ∧ rname ≠ ""
  | Event.deny rid rname _ comments => rid ≠ "" ∧ rname ≠ "" ∧ comments ≠ ""
  | _ => true

/-- Modelled from the spec: the effect column of the section 4.1 table.
An approve with modifications replaces the content fields as well
(section 4.1 rationale: approval and edit are merged) and bumps the
version; an edit replaces content and bumps the version; decision-only
events leave the version alone.  Reviews are appended, never rewritten. -/
def applyEvent (p : CarePlan) : Event → CarePlan
  | Event.submitForReview => { p with status := Status.under_review }
  | Event.approve rid rname date comments mods =>
      let withReview :=
        { p with
          status := Status.approved,
          clinician_reviews := p.clinician_reviews ++
            [{ reviewer_id := rid, reviewer_name := rname, review_date := date,
               status := "approved", comments := comments, modifications := mods }] }
      match mods with
      | some m =>
          { withReview with
            clinical_summary := m.clinical_summary,
            actions := m.actions,
            short_term_goals := m.short_term_goals,
            version := p.version + 1 }
      | none => withReview
  | Event.deny rid rname date comments =>
      { p with
        status := Status.denied,
        clinician_reviews := p.clinician_reviews ++
          [{ reviewer_id := rid, reviewer_name := rname, review_date := date,
             status := "denied", comments := some comments, modifications := none }] }
  | Event.edit rid rname date m =>
      { p with
        clinical_summary := m.clinical_summary,
        actions := m.actions,
        short_term_goals := m.short_term_goals,
        version := p.version + 1,
        clinician_reviews := p.clinician_reviews ++
          [{ reviewer_id := rid, reviewer_name := rname, review_date := date,
             status := "edited", comments := none, modifications := some m }] }
  | Event.sendToPatient ts => { p with status := Status.sent_to_patient, last_modified := ts }
  | Event.activate => { p with status := Status.active }
  | Event.complete => { p with status := Status.completed }

/-- Modelled from the spec: one Review Engine transition attempt (sections
4.1, 4.2 and 7).  The optimistic version check comes first (`StaleVersion`),
then the state-machine check (`InvalidTransition`), the role guard
(`Forbidden`) and validation (`ValidationFailed`); only then is the effect
applied. -/
def reviewEngineStep (r : Role) (suppliedVersion : Nat) (ev : Event)
    (p : CarePlan) : Except ErrorKind CarePlan :=
  if suppliedVersion ≠ p.version then Except.error ErrorKind.StaleVersion
  else if ¬ eventAllowed p.status ev then Except.error ErrorKind.InvalidTransition
  else if ¬ roleAllowed r ev then Except.error ErrorKind.Forbidden
  else if ¬ eventValid p ev then Except.error ErrorKind.ValidationFailed
  else Except.ok (applyEvent p ev)

/-- Modelled from the spec: the stored state after a compare-and-swap
attempt (section 4.2) — an accepted transition installs the new plan, a
rejected one leaves the store untouched. -/
def storeAfter (p : CarePlan) : Except ErrorKind CarePlan → CarePlan
  | Except.ok q => q
  | Except.error _ => p

/-- Modelled from the spec: the content-changing events (section 8: `edit`,
or `approve` with modifications). -/
def contentChanging : Event → Bool
  | Event.edit _ _ _ _ => true
  | Event.approve _ _ _ _ mods => mods.isSome
  | _ => false

/-- The edges of the section 4.1 transition graph, self-loops for the
stay-in-place edits included. -/
def allowedEdge : Status → Status → Bool
  | Status.draft, Status.under_review => true
  | Status.under_review, Status.approved => true
  | Status.under_review, Status.denied => true
  | Status.under_review, Status.under_review => true
  | Status.approved, Status.sent_to_patient => true
  | Status.approved, Status.approved => true
  | Status.sent_to_patient, Status.active => true
  | Status.sent_to_patient, Status.sent_to_patient => true
  | Status.active, Status.completed => true
  | Status.active, Status.active => true
  | _, _ => false

/-! ## Sample data for concrete evaluations -/

/-- A concrete care-plan action used to evaluate the operations. -/
def sampleAction : CarePlanAction :=
  { action_id := "a1"
    action_type := ActionType.medication
    description := "Start lisinopril 10mg daily"
    priority := Priority.high
    timeline := "2 weeks"
    rationale := "Blood pressure control"
    evidence_source := none
    contraindications := [] }

/-- A concrete care plan awaiting review, used to evaluate the operations. -/
def samplePlan : CarePlan :=
  { careplan_id := "cp1"
    patient_id := "p1"
    patient_name := some "Pat Doe"
    created_date := "2024-01-01"
    last_modified := "2024-01-02"
    status := Status.under_review
    version := 1
    primary_diagnosis := "Hypertension"
    secondary_diagnoses := []
    chief_complaint := "Headache"
    clinical_summary := "Elevated blood pressure over three visits"
    actions := [sampleAction]
    short_term_goals := ["Lower systolic below 140"]
    long_term_goals := []
    success_metrics := []
    clinician_reviews := []
    final_approver := none
    approval_date := none
    patient_instructions := none
    educational_resources := []
    llm_model_used := some "gpt-x"
    generation_timestamp := some "2024-01-01T00:00:00Z"
    confidence_score := some (82 / 100 : ℚ)
    assigned_clinician := none
    priority := none
    last_review_date := none
    reviewer_comments := none
    clinician_notes := none }

/-- A concrete modifications snapshot used to evaluate the operations. -/
def sampleMods : Modifications :=
  { actions := [sampleAction]
    clinical_summary := "Updated summary after review"
    short_term_goals := ["Re-check in one week"] }

end CarePlanAI

namespace CarePlanAI

/-! ## Claims -/

/-- C9: `getPatientCarePlans` returns the empty list when the backend
fails with HTTP status 404, and re-throws every failure whose response
status is not 404. -/
theorem getPatientCarePlans_404_gives_empty_otherwise_rethrows :
    ∀ e : HttpFailure,
      (e.responseStatus = some 404 →
        getPatientCarePlans (Except.error e) = Except.ok []) ∧
      (e.responseStatus ≠ some 404 →
        getPatientCarePlans (Except.error e) = Except.error e) := by
  intro e
  constructor <;> intro h <;> simp [getPatientCarePlans, h]

/-- Witness: the 404 failure maps to the empty list and a 500 failure is
re-thrown. -/
theorem getPatientCarePlans_404_gives_empty_otherwise_rethrows_check :
    getPatientCarePlans (Except.error ⟨some 404⟩) = Except.ok [] ∧
      getPatientCarePlans (Except.error ⟨some 500⟩) = Except.error ⟨some 500⟩ :=
  ⟨(getPatientCarePlans_404_gives_empty_otherwise_rethrows ⟨some 404⟩).1 (by decide),
   (getPatientCarePlans_404_gives_empty_otherwise_rethrows ⟨some 500⟩).2 (by decide)⟩

/-- C10: after `logout` — whether the server call succeeded, returned a
failing response, or threw — the user and token are `none`, both stored
localStorage entries are removed, and `isAuthenticated` is `false`. -/
theorem logout_clears_auth_state :
    ∀ (outcome : LogoutServerOutcome) (st : AuthState),
      (logout outcome st).user = none ∧
      (logout outcome st).token = none ∧
      (logout outcome st).storedToken = none ∧
      (logout outcome st).storedUser = none ∧
      isAuthenticated (logout outcome st) = false := by
  intro outcome st
  simp [logout, isAuthenticated]

/-- C8: the doctor dashboard's `activeCarePlans` statistic counts the
`approved` plans together with the `active` ones, and the overview card
displays that same number under both the "Completed Plans" and the
"Active Plans" labels. -/
theorem activeCarePlansStat_conflates_approved_and_active :
    ∀ (plans : List CarePlan) (stats : DoctorStats),
      activeCarePlansStat plans =
        countWithStatus plans Status.approved + countWithStatus plans Status.active ∧
      (carePlansOverviewChips stats)[1]? = some ("Completed Plans", stats.activeCarePlans) ∧
      (carePlansOverviewChips stats)[2]? = some ("Active Plans", stats.activeCarePlans) := by
  intro plans stats
  refine ⟨?_, rfl, rfl⟩
  induction plans with
  | nil => rfl
  | cons p l ih =>
    by_cases h1 : p.status = Status.approved
    · simp [activeCarePlansStat, countWithStatus, List.filter_cons, h1] at ih ⊢
      omega
    · by_cases h2 : p.status = Status.active
      · simp [activeCarePlansStat, countWithStatus, List.filter_cons, h1, h2] at ih ⊢
        omega
      · simp [activeCarePlansStat, countWithStatus, List.filter_cons, h1, h2] at ih ⊢
        omega

/-- C2: a deny transition with empty comments, issued by a reviewer with
the matching version against a plan under review, is rejected with
`ValidationFailed` and the stored plan is unchanged. -/
theorem deny_without_comments_rejected :
    ∀ (r : Role) (p : CarePlan) (rid rname date : String),
      p.status = Status.under_review →
      (r = Role.clinician ∨ r = Role.admin) →
      reviewEngineStep r p.version (Event.deny rid rname date "") p =
          Except.error ErrorKind.ValidationFailed ∧
        storeAfter p (reviewEngineStep r p.version (Event.deny rid rname date "") p) = p := by
  intro r p rid rname date hst hrole
  have hstep : reviewEngineStep r p.version (Event.deny rid rname date "") p =
      Except.error ErrorKind.ValidationFailed := by
    simp [reviewEngineStep, eventAllowed, roleAllowed, eventValid, hst, hrole]
  exact ⟨hstep, by rw [hstep]; rfl⟩

/-- Witness: the clinician's empty-comments deny of the sample plan is
rejected with `ValidationFailed` and the plan is untouched. -/
theorem deny_without_comments_rejected_check :
    reviewEngineStep Role.clinician samplePlan.version
        (Event.deny "c1" "Dr Kim" "2024-01-03" "") samplePlan =
      Except.error ErrorKind.ValidationFailed ∧
    storeAfter samplePlan
        (reviewEngineStep Role.clinician samplePlan.version
          (Event.deny "c1" "Dr Kim" "2024-01-03" "") samplePlan) = samplePlan :=
  deny_without_comments_rejected Role.clinician samplePlan "c1" "Dr Kim" "2024-01-03"
    (by rfl) (Or.inl rfl)

/-- C3: every accepted Review Engine transition changes the version by
exactly 1 when the event is content-changing (an edit, or an approve
carrying modifications) and by 0 otherwise; in particular the version
never decreases and never skips a value. -/
theorem version_steps_by_at_most_one :
    ∀ (r : Role) (v : Nat) (ev : Event) (p q : CarePlan),
      reviewEngineStep r v ev p = Except.ok q →
      q.version = p.version + (if contentChanging ev then 1 else 0) ∧
        p.version ≤ q.version ∧ q.version ≤ p.version + 1 := by
  intro r v ev p q h
  simp only [reviewEngineStep] at h
  split_ifs at h
  have hq : q = applyEvent p ev := (Except.ok.injEq _ _).mp h |>.symm
  subst hq
  have hmain : (applyEvent p ev).version =
      p.version + (if contentChanging ev then 1 else 0) := by
    cases ev with
    | approve rid rname date comments mods =>
        cases mods <;> simp [applyEvent, contentChanging]
    | _ => simp [applyEvent, contentChanging]
  refine ⟨hmain, ?_, ?_⟩ <;> rw [hmain] <;> split <;> omega

/-- Witness: an accepted edit of the sample plan moves the version from 1
to 2. -/
theorem version_steps_by_at_most_one_check :
    (applyEvent samplePlan (Event.edit "c1" "Dr Kim" "2024-01-03" sampleMods)).version =
        samplePlan.version + (if contentChanging (Event.edit "c1" "Dr Kim" "2024-01-03" sampleMods) then 1 else 0) ∧
      samplePlan.version ≤ (applyEvent samplePlan (Event.edit "c1" "Dr Kim" "2024-01-03" sampleMods)).version ∧
      (applyEvent samplePlan (Event.edit "c1" "Dr Kim" "2024-01-03" sampleMods)).version ≤ samplePlan.version + 1 :=
  version_steps_by_at_most_one Role.clinician samplePlan.version
    (Event.edit "c1" "Dr Kim" "2024-01-03" sampleMods) samplePlan
    (applyEvent samplePlan (Event.edit "c1" "Dr Kim" "2024-01-03" sampleMods)) (by rfl)

/-- C4: the review dialog issues an approve action only for a plan whose
status is `under_review`, and every accepted Review Engine transition
follows an edge of the section 4.1 graph — in particular no accepted
transition moves a plan from `draft` directly to `approved`. -/
theorem status_moves_only_along_transition_graph :
    (∀ s : Status, dialogDecisionAction s = ReviewAction.approve →
      s = Status.under_review) ∧
    (∀ (r : Role) (v : Nat) (ev : Event) (p q : CarePlan),
      reviewEngineStep r v ev p = Except.ok q →
      allowedEdge p.status q.status = true ∧
        ¬(p.status = Status.draft ∧ q.status = Status.approved)) := by
  constructor
  · intro s h
    by_cases hs : s = Status.under_review
    · exact hs
    · simp [dialogDecisionAction, hs] at h
  · intro r v ev p q h
    simp only [reviewEngineStep] at h
    split_ifs at h with h1 h2 h3 h4
    have hq : q = applyEvent p ev := (Except.ok.injEq _ _).mp h |>.symm
    subst hq
    cases ev with
    | submitForReview =>
        simp [eventAllowed] at h2
        simp [applyEvent, allowedEdge, h2]
    | approve rid rname date comments mods =>
        simp [eventAllowed] at h2
        cases mods <;> simp [applyEvent, allowedEdge, h2]
    | deny rid rname date comments =>
        simp [eventAllowed] at h2
        simp [applyEvent, allowedEdge, h2]
    | edit rid rname date m =>
        simp [eventAllowed] at h2
        rcases h2 with h2 | h2 | h2 | h2 <;> simp [applyEvent, allowedEdge, h2]
    | sendToPatient ts =>
        simp [eventAllowed] at h2
        simp [applyEvent, allowedEdge, h2]
    | activate =>
        simp [eventAllowed] at h2
        simp [applyEvent, allowedEdge, h2]
    | complete =>
        simp [eventAllowed] at h2
        simp [applyEvent, allowedEdge, h2]

/-- Witness: the dialog's approve on an under-review plan, and the
accepted approve of the sample plan landing on the
`under_review → approved` edge. -/
theorem status_moves_only_along_transition_graph_check :
    Status.under_review = Status.under_review ∧
      (allowedEdge samplePlan.status
          (applyEvent samplePlan (Event.approve "c1" "Dr Kim" "2024-01-03" (some "ok") none)).status = true ∧
        ¬(samplePlan.status = Status.draft ∧
          (applyEvent samplePlan (Event.approve "c1" "Dr Kim" "2024-01-03" (some "ok") none)).status = Status.approved)) :=
  ⟨status_moves_only_along_transition_graph.1 Status.under_review (by rfl),
   status_moves_only_along_transition_graph.2 Role.clinician samplePlan.version
     (Event.approve "c1" "Dr Kim" "2024-01-03" (some "ok") none) samplePlan
     (applyEvent samplePlan (Event.approve "c1" "Dr Kim" "2024-01-03" (some "ok") none)) (by rfl)⟩

/-- C5: the dialog chooses the edit action exactly when the plan is not
under review, and an edit — both in the client's optimistic update and in
an accepted engine transition — replaces the clinical summary, the
actions and the short-term goals while leaving the status unchanged. -/
theorem edit_replaces_content_and_keeps_status :
    (∀ s : Status, dialogDecisionAction s = ReviewAction.edit ↔ s ≠ Status.under_review) ∧
    (∀ (p : CarePlan) (c : String) (m : Modifications),
      (p.status = Status.approved ∨ p.status = Status.sent_to_patient ∨
          p.status = Status.active) →
      (optimisticUpdate p ReviewAction.edit c (some m)).status = p.status ∧
        (optimisticUpdate p ReviewAction.edit c (some m)).clinical_summary = m.clinical_summary ∧
        (optimisticUpdate p ReviewAction.edit c (some m)).actions = m.actions ∧
        (optimisticUpdate p ReviewAction.edit c (some m)).short_term_goals = m.short_term_goals) ∧
    (∀ (r : Role) (p q : CarePlan) (rid rname date : String) (m : Modifications),
      (p.status = Status.approved ∨ p.status = Status.sent_to_patient ∨
          p.status = Status.active) →
      reviewEngineStep r p.version (Event.edit rid rname date m) p = Except.ok q →
      q.status = p.status ∧ q.clinical_summary = m.clinical_summary ∧
        q.actions = m.actions ∧ q.short_term_goals = m.short_term_goals) := by
  refine ⟨?_, ?_, ?_⟩
  · intro s
    constructor
    · intro h hs
      simp [dialogDecisionAction, hs] at h
    · intro hs
      simp [dialogDecisionAction, hs]
  · intro p c m _
    simp [optimisticUpdate]
  · intro r p q rid rname date m _ h
    simp only [reviewEngineStep] at h
    split_ifs at h
    have hq : q = applyEvent p (Event.edit rid rname date m) :=
      (Except.ok.injEq _ _).mp h |>.symm
    subst hq
    simp [applyEvent]

/-- Witness: the dialog picks edit for an approved plan, and an edit of
the sample plan (moved to `approved`) swaps in the modified content while
the status stays `approved`. -/
theorem edit_replaces_content_and_keeps_status_check :
    (dialogDecisionAction Status.approved = ReviewAction.edit ↔
        Status.approved ≠ Status.under_review) ∧
      ((optimisticUpdate { samplePlan with status := Status.approved }
          ReviewAction.edit "tweak" (some sampleMods)).status =
            ({ samplePlan with status := Status.approved } : CarePlan).status ∧
        (optimisticUpdate { samplePlan with status := Status.approved }
          ReviewAction.edit "tweak" (some sampleMods)).clinical_summary = sampleMods.clinical_summary ∧
        (optimisticUpdate { samplePlan with status := Status.approved }
          ReviewAction.edit "tweak" (some sampleMods)).actions = sampleMods.actions ∧
        (optimisticUpdate { samplePlan with status := Status.approved }
          ReviewAction.edit "tweak" (some sampleMods)).short_term_goals = sampleMods.short_term_goals) :=
  ⟨edit_replaces_content_and_keeps_status.1 Status.approved,
   edit_replaces_content_and_keeps_status.2.1 { samplePlan with status := Status.approved }
     "tweak" sampleMods (Or.inl (by rfl))⟩

/-- C6: the provenance fields `llm_model_used`, `generation_timestamp` and
`confidence_score` are preserved by the client's optimistic update, never
appear among the keys of the review request body, and are preserved by
every accepted Review Engine transition. -/
theorem provenance_fields_never_touched :
    (∀ (p : CarePlan) (a : ReviewAction) (c : String) (m : Option Modifications),
      (optimisticUpdate p a c m).llm_model_used = p.llm_model_used ∧
        (optimisticUpdate p a c m).generation_timestamp = p.generation_timestamp ∧
        (optimisticUpdate p a c m).confidence_score = p.confidence_score) ∧
    (∀ (a : ReviewAction) (c : String) (m : Option Modifications),
      "llm_model_used" ∉ (buildReviewRequest a c m).serializedKeys ∧
        "generation_timestamp" ∉ (buildReviewRequest a c m).serializedKeys ∧
        "confidence_score" ∉ (buildReviewRequest a c m).serializedKeys) ∧
    (∀ (r : Role) (v : Nat) (ev : Event) (p q : CarePlan),
      reviewEngineStep r v ev p = Except.ok q →
      q.llm_model_used = p.llm_model_used ∧
        q.generation_timestamp = p.generation_timestamp ∧
        q.confidence_score = p.confidence_score) := by
  refine ⟨?_, ?_, ?_⟩
  · intro p a c m
    cases a <;> cases m <;> simp [optimisticUpdate]
  · intro a c m
    cases m <;> simp [buildReviewRequest, ReviewRequestBody.serializedKeys]
  · intro r v ev p q h
    simp only [reviewEngineStep] at h
    split_ifs at h
    have hq : q = applyEvent p ev := (Except.ok.injEq _ _).mp h |>.symm
    subst hq
    cases ev with
    | approve rid rname date comments mods =>
        cases mods <;> simp [applyEvent]
    | _ => simp [applyEvent]

/-- Witness: an accepted approve-with-modifications of the sample plan
keeps the `gpt-x` model name, the generation timestamp and the 0.82
confidence score. -/
theorem provenance_fields_never_touched_check :
    (applyEvent samplePlan (Event.approve "c1" "Dr Kim" "2024-01-03" (some "ok") (some sampleMods))).llm_model_used = samplePlan.llm_model_used ∧
      (applyEvent samplePlan (Event.approve "c1" "Dr Kim" "2024-01-03" (some "ok") (some sampleMods))).generation_timestamp = samplePlan.generation_timestamp ∧
      (applyEvent samplePlan (Event.approve "c1" "Dr Kim" "2024-01-03" (some "ok") (some sampleMods))).confidence_score = samplePlan.confidence_score :=
  provenance_fields_never_touched.2.2 Role.clinician samplePlan.version
    (Event.approve "c1" "Dr Kim" "2024-01-03" (some "ok") (some sampleMods)) samplePlan
    (applyEvent samplePlan (Event.approve "c1" "Dr Kim" "2024-01-03" (some "ok") (some sampleMods)))
    (by rfl)

/-- C1 counterexample: the review request the client submits — here an
approve with comments and no modifications, exactly what
`handleSubmitReview` sends — carries no `expected_version` key at all. -/
theorem review_request_lacks_version_field :
    "expected_version" ∉
      (buildReviewRequest ReviewAction.approve "Looks good" none).serializedKeys := by
  decide

/-- C1 amended: every review submission built by the client carries only
the `action`, `comments` and (when modifications are present)
`modifications` keys; no version key of any kind is sent, so the client
does not take part in the optimistic `StaleVersion` check. -/
theorem review_request_keys_only_action_comments_modifications :
    ∀ (a : ReviewAction) (c : String) (m : Option Modifications),
      "expected_version" ∉ (buildReviewRequest a c m).serializedKeys ∧
        "version" ∉ (buildReviewRequest a c m).serializedKeys ∧
        ∀ k ∈ (buildReviewRequest a c m).serializedKeys,
          k = "action" ∨ k = "comments" ∨ k = "modifications" := by
  intro a c m
  cases m <;> simp [buildReviewRequest, ReviewRequestBody.serializedKeys]

/-- Witness: the keys of a concrete edit submission with modifications. -/
theorem review_request_keys_only_action_comments_modifications_check :
    "expected_version" ∉
        (buildReviewRequest ReviewAction.edit "tweak" (some sampleMods)).serializedKeys ∧
      "version" ∉
        (buildReviewRequest ReviewAction.edit "tweak" (some sampleMods)).serializedKeys ∧
      ∀ k ∈ (buildReviewRequest ReviewAction.edit "tweak" (some sampleMods)).serializedKeys,
        k = "action" ∨ k = "comments" ∨ k = "modifications" :=
  review_request_keys_only_action_comments_modifications ReviewAction.edit "tweak"
    (some sampleMods)

/-- C7 counterexample: for a failed submission carrying a non-StaleVersion
error (`NotFound`), the handler does not surface the error to the user
and does refetch the care-plan list, contradicting the claim that
non-StaleVersion errors are shown as-is with no refetch. -/
theorem failed_review_not_surfaced_and_refetched :
    (handleSubmitReviewEffects true (Except.error ErrorKind.NotFound)).surfacedErrorToUser = false ∧
      (handleSubmitReviewEffects true (Except.error ErrorKind.NotFound)).refetchedPlans = true := by
  decide

/-- C7 amended: the client treats every failed review submission
identically, whatever the error kind: it logs the error to the console,
refetches the care-plan list to revert the optimistic update, leaves the
dialog open, surfaces nothing in the UI, and never re-sends the
submission; no error kind — `StaleVersion` included — gets special
treatment. -/
theorem failed_review_handled_uniformly :
    ∀ (isClinician : Bool) (e : ErrorKind),
      handleSubmitReviewEffects isClinician (Except.error e) =
        { closedDialog := false, refetchedPlans := true, surfacedErrorToUser := false,
          loggedToConsole := true, resubmitted := false } ∧
      ∀ e2 : ErrorKind,
        handleSubmitReviewEffects isClinician (Except.error e) =
          handleSubmitReviewEffects isClinician (Except.error e2) := by
  intro isClinician e
  exact ⟨rfl, fun _ => rfl⟩

end CarePlanAI
